import Mathlib

/-!
# Shox session host (`pkg/terminal/terminal.go`)

A shallow embedding of the `Terminal` type of shox and of its methods.

* Go strings and byte slices are lists of bytes.
* The `Terminal` struct is a record; the `sync.RWMutex` field only serialises
  access to `hideOutput` and carries no data, so the sequential model omits it.
* Everything the methods do to the outside world (the process environment, the
  proxy, child processes, the pty, the controlling terminal) is recorded, in
  program order, in a trace of `Event`s. The answers of the outside world
  (command output, spawn failure, ...) are supplied by an `Oracle`.
* `defer` is modelled by an explicit stack of deferred calls that is unwound,
  last registered first, when `Run` returns or panics.
-/

namespace Shox

/-- Go strings and byte slices. -/
abbrev Bytes := List UInt8

/-- The bytes of an ASCII string literal of the source. -/
def ascii (s : String) : Bytes := s.toList.map (fun c => UInt8.ofNat c.toNat)

/-! ## The Go standard library functions used by the source -/

namespace strings

/-- Go: `len(s) >= len(prefix) && s[:len(prefix)] == prefix`. -/
def HasPrefix (s pre : Bytes) : Bool :=
  decide (pre.length ≤ s.length) && (s.take pre.length == pre)

/-- Go: `len(s) >= len(suffix) && s[len(s)-len(suffix):] == suffix`. -/
def HasSuffix (s suf : Bytes) : Bool :=
  decide (suf.length ≤ s.length) && (s.drop (s.length - suf.length) == suf)

/-- Go: `if HasPrefix(s, prefix) { return s[len(prefix):] }; return s`. -/
def TrimPrefix (s pre : Bytes) : Bytes :=
  if HasPrefix s pre then s.drop pre.length else s

/-- Go: `if HasSuffix(s, suffix) { return s[:len(s)-len(suffix)] }; return s`. -/
def TrimSuffix (s suf : Bytes) : Bytes :=
  if HasSuffix s suf then s.take (s.length - suf.length) else s

end strings

/-- A Go `error` value, identified with the text `Error()` returns. -/
structure GoError where
  msg : Bytes
deriving DecidableEq, Repr

/-- Go: `fmt.Errorf(lit)` for a literal without formatting verbs. -/
def Errorf (lit : String) : GoError := ⟨ascii lit⟩

/-- The process environment: the variables that are set, newest first. -/
abbrev Env := List (Bytes × Bytes)

/-- Go: `os.Getenv`: the value of the variable, empty when it is not set. -/
def Getenv (env : Env) (key : Bytes) : Bytes :=
  match env.find? (fun kv => kv.1 == key) with
  | some kv => kv.2
  | none => []

/-- Go: `os.Setenv`: fails with `EINVAL` on an empty key, on a key holding `=` or
NUL and on a value holding NUL; otherwise the variable is (re)bound. -/
def Setenv (env : Env) (key val : Bytes) : Env × Option GoError :=
  if key.isEmpty || key.any (fun b => b == 0x3d || b == 0) || val.any (fun b => b == 0) then
    (env, some (Errorf "invalid argument"))
  else
    ((key, val) :: env.filter (fun kv => !(kv.1 == key)), none)

/-- The termios settings of the controlling terminal, reduced to what matters
here: whether they are the raw-mode settings, and everything else. -/
structure Termios where
  raw : Bool
  rest : Nat
deriving DecidableEq, Repr

/-- Handle of the `*proxy.Proxy` a terminal owns. -/
structure ProxyRef where
  id : Nat
deriving DecidableEq, Repr

/-- Handle of the pty master `*os.File`. -/
structure PtyRef where
  fd : Nat
deriving DecidableEq, Repr

/-- Go: `exec.Cmd`, the fields the source sets. -/
structure Cmd where
  name : Bytes
  args : List Bytes
  dir : Bytes
deriving DecidableEq, Repr

/-- Go: `pty.Winsize`; the four fields are `uint16` in the source and no
arithmetic is done on them. -/
structure Winsize where
  Rows : Nat
  Cols : Nat
  X : Nat
  Y : Nat
deriving DecidableEq, Repr

/-! ## The data model -/

/-- Go: `type Terminal struct` (lines 21-30). -/
structure Terminal where
  shell : Bytes
  dir : Bytes
  proxy : ProxyRef
  pty : Option PtyRef
  enableNesting : Bool
  hideOutput : Bool
  motd : Bytes
deriving DecidableEq, Repr

/-- The calls that leave the `Terminal` value, in the order they are made. -/
inductive Event where
  | getenv (key : Bytes)
  | setenv (key val : Bytes)
  | proxyNew (p : ProxyRef)
  | proxyAddDecorator (p : ProxyRef) (d : Nat)
  | proxyForceRedraw (p : ProxyRef)
  | proxyStart (p : ProxyRef)
  | proxyClose (p : ProxyRef)
  | proxyWrite (p : ProxyRef) (chunk : Bytes)
  | proxyHandleResize (p : ProxyRef) (rows cols : Nat)
  | cmdOutput (c : Cmd)
  | ptyStart (c : Cmd)
  | ptyClose (f : Option PtyRef)
  | ptyWrite (f : Option PtyRef) (data : Bytes) (failed : Bool)
  | ptyGetsizeFull
  | ptySetsize (f : Option PtyRef) (size : Winsize)
  | signalNotify
  | goResizeWorker
  | sendSIGWINCH
  | makeRaw
  | restore (old : Termios)
  | goCopyStdinToPty (f : Option PtyRef)
  | goCopyProxyToStdout (p : ProxyRef)
  | copyPtyToProxy (p : ProxyRef) (f : Option PtyRef)
  | printf (out : Bytes)
deriving DecidableEq, Repr

/-- The terminal value together with the part of the world its methods touch. -/
structure St where
  term : Terminal
  env : Env
  tty : Termios
  trace : List Event
deriving DecidableEq, Repr

/-- Record one call. -/
def St.log (s : St) (e : Event) : St := { s with trace := s.trace ++ [e] }

/-- How a call into code outside this file ends. -/
inductive CallResult where
  | returns (err : Option GoError)
  | panics (v : GoError)
deriving DecidableEq, Repr

/-- The answers of the outside world during one `Run`. -/
structure Oracle where
  /-- Result of `exec.Command(shell, "-c", cmd).Output()`: stdout and error. -/
  cmdOutput : Cmd → Bytes × Option GoError
  /-- Result of `pty.Start(c)`. -/
  ptyStart : Cmd → Except GoError PtyRef
  /-- Error of `terminal.MakeRaw` on stdin, if it fails. -/
  makeRawErr : Option GoError
  /-- Error of the write of the `i`-th initial command to the pty, if it fails. -/
  ptyWriteErr : Nat → Option GoError
  /-- How the copy loop `lazyCopy(t.proxy, t.pty)` ends. -/
  copyLoop : CallResult
  /-- Error of `terminal.Restore` on stdin, if it fails. -/
  restoreErr : Option GoError

/-- How `Run` ends: it returns its `error` result, or it panics. -/
inductive Outcome where
  | returned (err : Option GoError)
  | panicked (v : GoError)
deriving DecidableEq, Repr

/-! ## Constructors and setters (lines 32-78) -/

/-- Go: `NewTerminal` (lines 33-44); `p` is the proxy `proxy.NewProxy()` returns.
Fields not named in the composite literal take their zero value. -/
def NewTerminal (env : Env) (tty : Termios) (p : ProxyRef) : St :=
  let shell := Getenv env (ascii "SHELL")
  let shell := if shell = [] then ascii "/bin/sh" else shell
  { term := { shell := shell, dir := [], proxy := p, pty := none,
              enableNesting := false, hideOutput := false, motd := [] },
    env := env, tty := tty,
    trace := [Event.getenv (ascii "SHELL"), Event.proxyNew p] }

/-- Go: `SetShell` (lines 47-49). -/
def SetShell (s : St) (shell : Bytes) : St := { s with term := { s.term with shell := shell } }

/-- Go: `SetMOTD` (lines 52-54). -/
def SetMOTD (s : St) (motd : Bytes) : St := { s with term := { s.term with motd := motd } }

/-- Go: `SetDir` (lines 57-59). -/
def SetDir (s : St) (dir : Bytes) : St := { s with term := { s.term with dir := dir } }

/-- Go: `AddDecorator` (lines 62-64). -/
def AddDecorator (s : St) (d : Nat) : St := s.log (Event.proxyAddDecorator s.term.proxy d)

/-- Go: `Pty` (lines 67-69). -/
def Pty (s : St) : Option PtyRef := s.term.pty

/-- Go: `SetNestingAllowed` (lines 72-74). -/
def SetNestingAllowed (s : St) (allowed : Bool) : St :=
  { s with term := { s.term with enableNesting := allowed } }

/-- Go: `ForceRedraw` (lines 76-78). -/
def ForceRedraw (s : St) : St := s.log (Event.proxyForceRedraw s.term.proxy)

/-! ## Output visibility (lines 170-186) -/

/-- Go: `HideOutput` (lines 170-174). -/
def HideOutput (s : St) : St := { s with term := { s.term with hideOutput := true } }

/-- Go: `ShowOutput` (lines 176-180). -/
def ShowOutput (s : St) : St := { s with term := { s.term with hideOutput := false } }

/-- Go: `hideAllOutput` (lines 182-186). -/
def hideAllOutput (s : St) : Bool := s.term.hideOutput

/-! ## `Run` (lines 81-168) -/

/-- The marker variable of the nesting guard. -/
def SHOX : Bytes := ascii "SHOX"

/-- The error of line 85. -/
def errAlreadyRunning : GoError := Errorf "shox is already running in this terminal"

/-- Lines 83-88: the nesting guard. Returns the error of the early return, if any. -/
def nestingGuard (s : St) : St × Option GoError :=
  if !s.term.enableNesting then
    let s := s.log (Event.getenv SHOX)
    if Getenv s.env SHOX ≠ [] then
      (s, some errAlreadyRunning)
    else
      let s := s.log (Event.setenv SHOX (ascii "1"))
      ({ s with env := (Setenv s.env SHOX (ascii "1")).1 }, none)
  else
    (s, none)

/-- The test of line 95: the MOTD starts with `$(` and ends with `)`. -/
def motdIsCommand (motd : Bytes) : Bool :=
  strings.HasPrefix motd (ascii "$(") && strings.HasSuffix motd (ascii ")")

/-- The command of line 98: `exec.Command(t.shell, "-c", motd)`. -/
def motdCmd (shell motd : Bytes) : Cmd :=
  { name := shell, args := [ascii "-c", motd], dir := [] }

/-- Lines 94-107: resolve the MOTD and store it back in the terminal. -/
def resolveMOTD (o : Oracle) (s : St) : St :=
  let motd := s.term.motd
  if motdIsCommand s.term.motd then
    let motd := strings.TrimPrefix motd (ascii "$(")
    let motd := strings.TrimSuffix motd (ascii ")")
    let s := s.log (Event.cmdOutput (motdCmd s.term.shell motd))
    match o.cmdOutput (motdCmd s.term.shell motd) with
    | (_, some err) => { s with term := { s.term with motd := err.msg } }
    | (output, none) => { s with term := { s.term with motd := output } }
  else
    { s with term := { s.term with motd := motd ++ ascii "\n" } }

/-- Go: `fmt.Sprintf("\x1bc%s\r", motd)` (line 109). -/
def bannerChunk (motd : Bytes) : Bytes := [0x1b, 0x63] ++ motd ++ [0x0d]

/-- Line 109: write the banner to the proxy; the result of the write is dropped. -/
def writeBanner (s : St) : St := s.log (Event.proxyWrite s.term.proxy (bannerChunk s.term.motd))

/-- Lines 112-116: the shell command; `c.Dir` is set when `t.dir` is not empty. -/
def shellCmd (t : Terminal) : Cmd :=
  let c : Cmd := { name := t.shell, args := [], dir := [] }
  if t.dir ≠ [] then { c with dir := t.dir } else c

/-- A call registered with `defer`. -/
inductive Deferred where
  | proxyClose (p : ProxyRef)
  | ptyClose
  | restore (old : Termios)
deriving DecidableEq, Repr

/-- Run one deferred call. `proxyClose` has its receiver fixed when it is
registered (line 91); the closures of lines 125 and 156 read `t.pty` and
`oldState` when they run, and drop the error of the call. -/
def runDeferred (o : Oracle) (s : St) (d : Deferred) : St :=
  match d with
  | Deferred.proxyClose p => s.log (Event.proxyClose p)
  | Deferred.ptyClose => s.log (Event.ptyClose s.term.pty)
  | Deferred.restore old =>
    let s := s.log (Event.restore old)
    match o.restoreErr with
    | none => { s with tty := old }
    | some _ => s

/-- Unwind the defer stack, most recently registered call first. -/
def unwind (o : Oracle) (s : St) (stack : List Deferred) : St :=
  stack.foldl (runDeferred o) s

/-- Lines 158-160: write each initial command, followed by a newline, to the
pty; the results of the writes are dropped. `i` numbers the writes. -/
def writeCommands (o : Oracle) (s : St) (i : Nat) : List Bytes → St
  | [] => s
  | command :: rest =>
    writeCommands o
      (s.log (Event.ptyWrite s.term.pty (command ++ ascii "\n") (o.ptyWriteErr i).isSome))
      (i + 1) rest

/-- Lines 151-167: raw mode, the initial commands, the copy workers and the copy
loop. `stack` holds the calls deferred so far. -/
def session (o : Oracle) (s : St) (stack : List Deferred) (commands : List Bytes) :
    St × Outcome :=
  let s := s.log Event.makeRaw
  match o.makeRawErr with
  | some err => (unwind o s stack, Outcome.panicked err)
  | none =>
    let oldState := s.tty
    let s := { s with tty := { s.tty with raw := true } }
    let stack := Deferred.restore oldState :: stack
    let s := writeCommands o s 0 commands
    let s := s.log (Event.goCopyStdinToPty s.term.pty)
    let s := s.log (Event.goCopyProxyToStdout s.term.proxy)
    let s := s.log (Event.copyPtyToProxy s.term.proxy s.term.pty)
    match o.copyLoop with
    | CallResult.panics v => (unwind o s stack, Outcome.panicked v)
    | CallResult.returns _ =>
      let s := s.log (Event.printf (ascii "\r\n"))
      (unwind o s stack, Outcome.returned none)

/-- Lines 111-149: spawn the shell on a pty and start the resize worker. -/
def spawn (o : Oracle) (s : St) (stack : List Deferred) (commands : List Bytes) :
    St × Outcome :=
  let c := shellCmd s.term
  let s := s.log (Event.ptyStart c)
  match o.ptyStart c with
  | Except.error err =>
    let s := { s with term := { s.term with pty := none } }
    (unwind o s stack, Outcome.returned (some err))
  | Except.ok f =>
    let s := { s with term := { s.term with pty := some f } }
    let stack := Deferred.ptyClose :: stack
    let s := s.log Event.signalNotify
    let s := s.log Event.goResizeWorker
    let s := s.log Event.sendSIGWINCH
    session o s stack commands

/-- Go: `Terminal.Run` (lines 81-168). -/
def Run (o : Oracle) (s : St) (commands : List Bytes) : St × Outcome :=
  match nestingGuard s with
  | (s, some err) => (s, Outcome.returned (some err))
  | (s, none) =>
    let s := s.log (Event.proxyStart s.term.proxy)
    let stack := [Deferred.proxyClose s.term.proxy]
    let s := resolveMOTD o s
    let s := writeBanner s
    spawn o s stack commands

/-! ## The resize worker (lines 130-148) -/

/-- The answers of the outside world during one iteration of the resize worker. -/
structure ResizeOracle where
  /-- Result of `pty.GetsizeFull(os.Stdin)`. -/
  getsize : Except GoError Winsize
  /-- Result of `t.proxy.HandleResize(rows, cols)`. -/
  handleResize : Nat → Nat → Nat × Nat
  /-- Error of `pty.Setsize`, if it fails. -/
  setsizeErr : Option GoError

/-- Lines 133-146: the body of the worker loop, run for one received signal. -/
def resizeIteration (r : ResizeOracle) (s : St) : St :=
  let s := s.log Event.ptyGetsizeFull
  match r.getsize with
  | Except.error _ => s
  | Except.ok size =>
    let s := s.log (Event.proxyHandleResize s.term.proxy size.Rows size.Cols)
    let (rows, cols) := r.handleResize size.Rows size.Cols
    let size := { size with Rows := rows }
    let size := { size with Cols := cols }
    s.log (Event.ptySetsize s.term.pty size)

/-- Lines 131-147: `for range ch`, one iteration per received signal. -/
def resizeWorker (s : St) (signals : List ResizeOracle) : St :=
  signals.foldl (fun s r => resizeIteration r s) s

/-! ## Auxiliary definitions used to state the results -/

/-- The calls made between the states `s` and `s'`, `s'` being reached from `s`. -/
def newEvents (s s' : St) : List Event := s'.trace.drop s.trace.length

/-- A `Run` is rejected by the nesting guard: it returns the error of line 85 and
the proxy has not been started. -/
def rejectedByGuard (s : St) (r : St × Outcome) : Prop :=
  r.2 = Outcome.returned (some errAlreadyRunning) ∧ ∀ p, Event.proxyStart p ∉ newEvents s r.1

/-- The call a deferred entry makes when it runs on terminal `t`. -/
def deferredEvent (t : Terminal) : Deferred → Event
  | Deferred.proxyClose p => Event.proxyClose p
  | Deferred.ptyClose => Event.ptyClose t.pty
  | Deferred.restore old => Event.restore old

/-- The pty writes of the initial commands, numbered from `i`. -/
def writeEvents (o : Oracle) (f : Option PtyRef) (i : Nat) : List Bytes → List Event
  | [] => []
  | command :: rest =>
    Event.ptyWrite f (command ++ ascii "\n") (o.ptyWriteErr i).isSome ::
      writeEvents o f (i + 1) rest

/-- The payloads of the pty writes of a trace, in order. -/
def ptyWritten : List Event → List Bytes
  | [] => []
  | Event.ptyWrite _ data _ :: rest => data :: ptyWritten rest
  | _ :: rest => ptyWritten rest

/-- The calls of lines 151-167 (`session`) on terminal `t`, `tty` being the
terminal settings on entry and `stack` the calls deferred so far. -/
def sessionEvents (o : Oracle) (t : Terminal) (tty : Termios) (stack : List Deferred)
    (commands : List Bytes) : List Event :=
  match o.makeRawErr with
  | some _ => Event.makeRaw :: stack.map (deferredEvent t)
  | none =>
    Event.makeRaw :: writeEvents o t.pty 0 commands ++
      [Event.goCopyStdinToPty t.pty, Event.goCopyProxyToStdout t.proxy,
        Event.copyPtyToProxy t.proxy t.pty] ++
      (match o.copyLoop with
        | CallResult.panics _ => []
        | CallResult.returns _ => [Event.printf (ascii "\r\n")]) ++
      (Deferred.restore tty :: stack).map (deferredEvent t)

/-- The calls of lines 111-167 (`spawn`) on terminal `t`. -/
def spawnEvents (o : Oracle) (t : Terminal) (tty : Termios) (stack : List Deferred)
    (commands : List Bytes) : List Event :=
  match o.ptyStart (shellCmd t) with
  | Except.error _ =>
    Event.ptyStart (shellCmd t) :: stack.map (deferredEvent { t with pty := none })
  | Except.ok f =>
    Event.ptyStart (shellCmd t) :: Event.signalNotify :: Event.goResizeWorker ::
      Event.sendSIGWINCH :: sessionEvents o { t with pty := some f } tty
        (Deferred.ptyClose :: stack) commands

/-- The calls of a nesting guard that lets `Run` through. -/
def guardEvents (t : Terminal) : List Event :=
  if t.enableNesting then [] else [Event.getenv SHOX, Event.setenv SHOX (ascii "1")]

/-- One call of `HideOutput` (`true`) or `ShowOutput` (`false`). -/
def toggleOutput (s : St) (hide : Bool) : St := if hide then HideOutput s else ShowOutput s

/-- A sample terminal: `/bin/sh`, nesting not allowed, output visible, no MOTD. -/
def sampleTerminal : Terminal :=
  { shell := ascii "/bin/sh", dir := [], proxy := ⟨0⟩, pty := none,
    enableNesting := false, hideOutput := false, motd := [] }

/-- A sample state: the sample terminal in an empty environment, nothing called yet. -/
def sampleSt : St := { term := sampleTerminal, env := [], tty := ⟨false, 0⟩, trace := [] }

/-- A sample state in which `SHOX` is already set. -/
def nestedSt : St := { sampleSt with env := [(SHOX, ascii "1")] }

/-- A sample oracle: every call succeeds, commands print `hi`. -/
def sampleOracle : Oracle :=
  { cmdOutput := fun _ => (ascii "hi", none),
    ptyStart := fun _ => Except.ok ⟨3⟩,
    makeRawErr := none,
    ptyWriteErr := fun _ => none,
    copyLoop := CallResult.returns none,
    restoreErr := none }

/-- The calls `Run` can make once the banner is written (lines 111-167 and the
deferred calls). -/
def Event.afterBanner : Event → Bool
  | Event.ptyStart _ => true
  | Event.ptyClose _ => true
  | Event.ptyWrite _ _ _ => true
  | Event.signalNotify => true
  | Event.goResizeWorker => true
  | Event.sendSIGWINCH => true
  | Event.makeRaw => true
  | Event.restore _ => true
  | Event.goCopyStdinToPty _ => true
  | Event.goCopyProxyToStdout _ => true
  | Event.copyPtyToProxy _ _ => true
  | Event.printf _ => true
  | Event.proxyClose _ => true
  | _ => false

/-- The calls that change the terminal settings: `MakeRaw` and `Restore`. -/
def Event.isRawCall : Event → Bool
  | Event.makeRaw => true
  | Event.restore _ => true
  | _ => false

/-- A sample oracle whose `terminal.Restore` fails; every other call succeeds. -/
def restoreFailsOracle : Oracle :=
  { sampleOracle with restoreErr := some (Errorf "input/output error") }

/-- A sample oracle whose first write to the pty fails and whose copy loop ends
with an error; every other call succeeds. -/
def writeFailsOracle : Oracle :=
  { sampleOracle with
    ptyWriteErr := fun i => if i = 0 then some (Errorf "input/output error") else none,
    copyLoop := CallResult.returns (some (Errorf "EOF")) }

/-! ## Basic facts -/

@[simp] theorem log_trace (s : St) (e : Event) : (s.log e).trace = s.trace ++ [e] := rfl
@[simp] theorem log_term (s : St) (e : Event) : (s.log e).term = s.term := rfl
@[simp] theorem log_env (s : St) (e : Event) : (s.log e).env = s.env := rfl
@[simp] theorem log_tty (s : St) (e : Event) : (s.log e).tty = s.tty := rfl

theorem newEvents_append (s s' : St) (l : List Event) (h : s'.trace = s.trace ++ l) :
    newEvents s s' = l := by
  simp [newEvents, h]

theorem Setenv_SHOX (env : Env) :
    Setenv env SHOX (ascii "1") =
      ((SHOX, ascii "1") :: env.filter (fun kv => !(kv.1 == SHOX)), none) := by
  unfold Setenv
  rw [if_neg (by decide)]

theorem Getenv_Setenv_SHOX (env : Env) :
    Getenv (Setenv env SHOX (ascii "1")).1 SHOX = ascii "1" := by
  rw [Setenv_SHOX]
  simp [Getenv]

theorem errAlreadyRunning_msg :
    errAlreadyRunning.msg = ascii "shox is already running in this terminal" := rfl

/-! ### Frame facts: what the phases of `Run` leave alone -/

theorem runDeferred_frame (o : Oracle) (s : St) (d : Deferred) :
    (runDeferred o s d).term = s.term ∧ (runDeferred o s d).env = s.env ∧
    (runDeferred o s d).trace = s.trace ++ [deferredEvent s.term d] := by
  cases d with
  | proxyClose p => simp [runDeferred, deferredEvent]
  | ptyClose => simp [runDeferred, deferredEvent]
  | restore old =>
    simp only [runDeferred, deferredEvent]
    cases o.restoreErr <;> simp

theorem unwind_frame (o : Oracle) (stack : List Deferred) (s : St) :
    (unwind o s stack).term = s.term ∧ (unwind o s stack).env = s.env ∧
    (unwind o s stack).trace = s.trace ++ stack.map (deferredEvent s.term) := by
  induction stack generalizing s with
  | nil => simp [unwind]
  | cons d ds ih =>
    have hd := runDeferred_frame o s d
    have h := ih (runDeferred o s d)
    simp only [unwind, List.foldl_cons] at h ⊢
    rw [h.1, h.2.1, h.2.2, hd.1, hd.2.1, hd.2.2]
    simp

theorem writeCommands_frame (o : Oracle) (commands : List Bytes) (s : St) (i : Nat) :
    (writeCommands o s i commands).term = s.term ∧
    (writeCommands o s i commands).env = s.env ∧
    (writeCommands o s i commands).tty = s.tty ∧
    (writeCommands o s i commands).trace = s.trace ++ writeEvents o s.term.pty i commands := by
  induction commands generalizing s i with
  | nil => simp [writeCommands, writeEvents]
  | cons c cs ih =>
    have h := ih (s.log (Event.ptyWrite s.term.pty (c ++ ascii "\n") (o.ptyWriteErr i).isSome))
      (i + 1)
    simp only [writeCommands, writeEvents]
    rw [h.1, h.2.1, h.2.2.1, h.2.2.2]
    simp

theorem resolveMOTD_frame (o : Oracle) (s : St) :
    (resolveMOTD o s).env = s.env ∧ (resolveMOTD o s).tty = s.tty ∧
    (resolveMOTD o s).term.shell = s.term.shell ∧ (resolveMOTD o s).term.dir = s.term.dir ∧
    (resolveMOTD o s).term.proxy = s.term.proxy := by
  unfold resolveMOTD
  split
  · simp only
    split <;> simp
  · simp

theorem session_frame (o : Oracle) (s : St) (stack : List Deferred) (commands : List Bytes) :
    (session o s stack commands).1.term = s.term ∧
    (session o s stack commands).1.env = s.env ∧
    (session o s stack commands).1.trace =
      s.trace ++ sessionEvents o s.term s.tty stack commands := by
  unfold session sessionEvents
  cases o.makeRawErr with
  | some err =>
    have h := unwind_frame o stack (s.log Event.makeRaw)
    simp only [h.1, h.2.1, h.2.2]
    simp
  | none =>
    simp only
    cases o.copyLoop with
    | panics v =>
      simp only
      rw [(unwind_frame o _ _).1, (unwind_frame o _ _).2.1, (unwind_frame o _ _).2.2]
      simp [(writeCommands_frame o commands _ 0)]
    | returns e =>
      simp only
      rw [(unwind_frame o _ _).1, (unwind_frame o _ _).2.1, (unwind_frame o _ _).2.2]
      simp [(writeCommands_frame o commands _ 0)]

theorem spawn_frame (o : Oracle) (s : St) (stack : List Deferred) (commands : List Bytes) :
    (spawn o s stack commands).1.env = s.env ∧
    (spawn o s stack commands).1.trace =
      s.trace ++ spawnEvents o s.term s.tty stack commands := by
  unfold spawn spawnEvents
  simp only [log_term]
  cases h : o.ptyStart (shellCmd s.term) with
  | error err =>
    simp only
    rw [(unwind_frame o _ _).2.1, (unwind_frame o _ _).2.2]
    simp
  | ok f =>
    simp only
    rw [(session_frame o _ _ _).2.1, (session_frame o _ _ _).2.2]
    simp

theorem guard_reject (s : St) (hn : s.term.enableNesting = false) (he : Getenv s.env SHOX ≠ []) :
    nestingGuard s = (s.log (Event.getenv SHOX), some errAlreadyRunning) := by
  simp [nestingGuard, hn, he]

theorem guard_set (s : St) (hn : s.term.enableNesting = false) (he : Getenv s.env SHOX = []) :
    nestingGuard s =
      ({ (s.log (Event.getenv SHOX)).log (Event.setenv SHOX (ascii "1")) with
          env := (Setenv s.env SHOX (ascii "1")).1 }, none) := by
  simp [nestingGuard, hn, he]

theorem guard_skip (s : St) (hn : s.term.enableNesting = true) :
    nestingGuard s = (s, none) := by
  simp [nestingGuard, hn]

theorem Run_pass (o : Oracle) (s s1 : St) (commands : List Bytes)
    (h : nestingGuard s = (s1, none)) :
    Run o s commands =
      spawn o (writeBanner (resolveMOTD o (s1.log (Event.proxyStart s1.term.proxy))))
        [Deferred.proxyClose s1.term.proxy] commands := by
  unfold Run
  rw [h]
  rfl

theorem resolveMOTD_trace (o : Oracle) (s : St) :
    ∃ l, (resolveMOTD o s).trace = s.trace ++ l ∧ ∀ e ∈ l, ∃ c, e = Event.cmdOutput c := by
  unfold resolveMOTD
  split
  · refine ⟨[Event.cmdOutput (motdCmd s.term.shell
      (strings.TrimSuffix (strings.TrimPrefix s.term.motd (ascii "$(")) (ascii ")")))], ?_, ?_⟩
    · simp only
      split <;> simp
    · intro e he
      exact ⟨_, List.mem_singleton.mp he⟩
  · exact ⟨[], by simp, by simp⟩

theorem deferredEvent_afterBanner (t : Terminal) (d : Deferred) :
    (deferredEvent t d).afterBanner = true := by
  cases d <;> rfl

theorem writeEvents_afterBanner (o : Oracle) (f : Option PtyRef) (commands : List Bytes)
    (i : Nat) : ∀ e ∈ writeEvents o f i commands, e.afterBanner = true := by
  induction commands generalizing i with
  | nil => simp [writeEvents]
  | cons c cs ih =>
    intro e he
    simp only [writeEvents, List.mem_cons] at he
    rcases he with rfl | he
    · rfl
    · exact ih (i + 1) e he

theorem sessionEvents_afterBanner (o : Oracle) (t : Terminal) (tty : Termios)
    (stack : List Deferred) (commands : List Bytes) :
    ∀ e ∈ sessionEvents o t tty stack commands, e.afterBanner = true := by
  intro e he
  unfold sessionEvents at he
  cases hm : o.makeRawErr with
  | some err =>
    rw [hm] at he
    simp only [List.mem_cons, List.mem_map] at he
    rcases he with rfl | ⟨d, -, rfl⟩
    · rfl
    · exact deferredEvent_afterBanner t d
  | none =>
    rw [hm] at he
    simp only [List.mem_cons, List.mem_append, List.mem_map] at he
    rcases he with (((rfl | he) | he) | he) | ⟨d, -, rfl⟩
    · rfl
    · exact writeEvents_afterBanner o _ _ _ e he
    · rcases he with rfl | rfl | rfl | he
      · rfl
      · rfl
      · rfl
      · simp at he
    · cases hc : o.copyLoop with
      | panics v => rw [hc] at he; simp at he
      | returns r =>
        rw [hc] at he
        simp only [List.mem_singleton] at he
        subst he
        rfl
    · exact deferredEvent_afterBanner t d

theorem spawnEvents_afterBanner (o : Oracle) (t : Terminal) (tty : Termios)
    (stack : List Deferred) (commands : List Bytes) :
    ∀ e ∈ spawnEvents o t tty stack commands, e.afterBanner = true := by
  intro e he
  unfold spawnEvents at he
  cases hp : o.ptyStart (shellCmd t) with
  | error err =>
    rw [hp] at he
    simp only [List.mem_cons, List.mem_map] at he
    rcases he with rfl | ⟨d, -, rfl⟩
    · rfl
    · exact deferredEvent_afterBanner _ d
  | ok f =>
    rw [hp] at he
    simp only [List.mem_cons] at he
    rcases he with rfl | rfl | rfl | rfl | he
    · rfl
    · rfl
    · rfl
    · rfl
    · exact sessionEvents_afterBanner o _ _ _ _ e he

theorem spawnEvents_head (o : Oracle) (t : Terminal) (tty : Termios)
    (stack : List Deferred) (commands : List Bytes) :
    ∃ rest, spawnEvents o t tty stack commands = Event.ptyStart (shellCmd t) :: rest := by
  unfold spawnEvents
  cases o.ptyStart (shellCmd t) <;> exact ⟨_, rfl⟩

/-- The calls of a `Run` that got past the guard in state `s1`: the start of the
proxy, at most one command execution, one write to the proxy, and then only
calls of the spawn phase. -/
theorem afterGuard_events (o : Oracle) (s1 : St) (stack : List Deferred)
    (commands : List Bytes) :
    ∃ l chunk sp, (spawn o (writeBanner (resolveMOTD o (s1.log (Event.proxyStart s1.term.proxy))))
        stack commands).1.trace =
        s1.trace ++ Event.proxyStart s1.term.proxy ::
          (l ++ Event.proxyWrite s1.term.proxy chunk :: sp) ∧
      (∀ e ∈ l, ∃ c, e = Event.cmdOutput c) ∧ (∀ e ∈ sp, e.afterBanner = true) := by
  obtain ⟨l, hl, hcmd⟩ := resolveMOTD_trace o (s1.log (Event.proxyStart s1.term.proxy))
  refine ⟨l, bannerChunk (resolveMOTD o (s1.log (Event.proxyStart s1.term.proxy))).term.motd,
    spawnEvents o (writeBanner (resolveMOTD o (s1.log (Event.proxyStart s1.term.proxy)))).term
      (writeBanner (resolveMOTD o (s1.log (Event.proxyStart s1.term.proxy)))).tty stack commands,
    ?_, hcmd, spawnEvents_afterBanner o _ _ _ _⟩
  rw [(spawn_frame o _ _ _).2]
  simp only [writeBanner, log_trace]
  rw [hl, (resolveMOTD_frame o _).2.2.2.2]
  simp

theorem afterGuard_trace (o : Oracle) (s1 : St) (stack : List Deferred)
    (commands : List Bytes) :
    ∃ rest, (spawn o (writeBanner (resolveMOTD o (s1.log (Event.proxyStart s1.term.proxy))))
        stack commands).1.trace = s1.trace ++ Event.proxyStart s1.term.proxy :: rest := by
  obtain ⟨l, chunk, sp, h, -⟩ := afterGuard_events o s1 stack commands
  exact ⟨_, h⟩

theorem afterGuard_env (o : Oracle) (s1 : St) (p : ProxyRef) (stack : List Deferred)
    (commands : List Bytes) :
    (spawn o (writeBanner (resolveMOTD o (s1.log (Event.proxyStart p)))) stack
        commands).1.env = s1.env := by
  rw [(spawn_frame o _ _ _).1]
  simp [writeBanner, (resolveMOTD_frame o _).1]

/-- When the guard lets `Run` through, the calls of the guard come first and the
start of the proxy follows them; the environment is the one the guard left. -/
theorem Run_pass_trace (o : Oracle) (s : St) (commands : List Bytes)
    (hp : ¬ (s.term.enableNesting = false ∧ Getenv s.env SHOX ≠ [])) :
    (∃ rest, (Run o s commands).1.trace =
        s.trace ++ guardEvents s.term ++ Event.proxyStart s.term.proxy :: rest) ∧
    (Run o s commands).1.env =
      (if s.term.enableNesting then s.env else (Setenv s.env SHOX (ascii "1")).1) := by
  cases hn : s.term.enableNesting with
  | true =>
    have hg := guard_skip s hn
    rw [Run_pass o s s commands hg]
    obtain ⟨rest, hrest⟩ := afterGuard_trace o s
      [Deferred.proxyClose s.term.proxy] commands
    refine ⟨⟨rest, ?_⟩, ?_⟩
    · rw [hrest]
      simp [guardEvents, hn]
    · rw [afterGuard_env]
      simp
  | false =>
    have he : Getenv s.env SHOX = [] := by
      by_contra hne
      exact hp ⟨hn, hne⟩
    have hg := guard_set s hn he
    rw [Run_pass o s _ commands hg]
    obtain ⟨rest, hrest⟩ := afterGuard_trace o
      { (s.log (Event.getenv SHOX)).log (Event.setenv SHOX (ascii "1")) with
          env := (Setenv s.env SHOX (ascii "1")).1 }
      [Deferred.proxyClose s.term.proxy] commands
    refine ⟨⟨rest, ?_⟩, ?_⟩
    · simp only [log_term] at hrest ⊢
      rw [hrest]
      simp [guardEvents, hn]
    · simp only [log_term]
      rw [afterGuard_env]
      simp

theorem Run_reject (o : Oracle) (s : St) (commands : List Bytes)
    (hn : s.term.enableNesting = false) (he : Getenv s.env SHOX ≠ []) :
    Run o s commands =
      (s.log (Event.getenv SHOX), Outcome.returned (some errAlreadyRunning)) := by
  unfold Run
  rw [guard_reject s hn he]

theorem rejectedByGuard_iff (o : Oracle) (s : St) (commands : List Bytes) :
    rejectedByGuard s (Run o s commands) ↔
      (s.term.enableNesting = false ∧ Getenv s.env SHOX ≠ []) := by
  constructor
  · intro hr
    by_contra hp
    obtain ⟨⟨rest, hrest⟩, -⟩ := Run_pass_trace o s commands hp
    have hnew := newEvents_append s (Run o s commands).1
      (guardEvents s.term ++ Event.proxyStart s.term.proxy :: rest) (by rw [hrest]; simp)
    apply hr.2 s.term.proxy
    rw [hnew]
    simp
  · rintro ⟨hn, he⟩
    rw [Run_reject o s commands hn he]
    refine ⟨rfl, ?_⟩
    intro p
    rw [newEvents_append _ _ [Event.getenv SHOX] (by simp)]
    simp

/-! ### The MOTD -/

theorem ascii_dollarParen : ascii "$(" = [0x24, 0x28] := by decide

theorem ascii_closeParen : ascii ")" = [0x29] := by decide

theorem ascii_newline : ascii "\n" = [0x0a] := by decide

/-- The test of line 95 holds exactly for the strings `$(` ++ cmd ++ `)`. -/
theorem motdIsCommand_iff (m : Bytes) :
    motdIsCommand m = true ↔ ∃ cmd, m = ascii "$(" ++ cmd ++ ascii ")" := by
  rw [ascii_dollarParen, ascii_closeParen]
  constructor
  · intro h
    simp only [motdIsCommand, strings.HasPrefix, strings.HasSuffix, ascii_dollarParen,
      ascii_closeParen, Bool.and_eq_true, decide_eq_true_eq, beq_iff_eq, List.length_cons,
      List.length_nil] at h
    obtain ⟨⟨hlen, htake⟩, -, hdrop⟩ := h
    match m, hlen, htake, hdrop with
    | [a], hlen, _, _ => simp at hlen
    | [a, b], _, htake, hdrop =>
      simp at htake hdrop
      rw [htake.2] at hdrop
      exact absurd hdrop (by decide)
    | a :: b :: c :: rest, _, htake, hdrop =>
      simp only [List.take_succ_cons, List.take_zero, List.cons.injEq, and_true] at htake
      obtain ⟨rfl, rfl⟩ := htake
      refine ⟨(c :: rest).dropLast, ?_⟩
      have hne : c :: rest ≠ [] := by simp
      have hlast : (c :: rest).drop ((c :: rest).length - 1) = [0x29] := by
        simpa using hdrop
      have hsplit : c :: rest = (c :: rest).dropLast ++ [0x29] := by
        rw [← hlast, List.dropLast_eq_take]
        exact (List.take_append_drop _ _).symm
      simp only [List.cons_append, List.nil_append, List.cons.injEq, true_and]
      exact hsplit
  · rintro ⟨cmd, rfl⟩
    simp [motdIsCommand, strings.HasPrefix, strings.HasSuffix, ascii_dollarParen,
      ascii_closeParen]

/-- Lines 96-97 strip the two delimiters. -/
theorem trim_command (cmd : Bytes) :
    strings.TrimSuffix (strings.TrimPrefix (ascii "$(" ++ cmd ++ ascii ")") (ascii "$("))
      (ascii ")") = cmd := by
  simp [strings.TrimSuffix, strings.TrimPrefix, strings.HasPrefix, strings.HasSuffix,
    ascii_dollarParen, ascii_closeParen]

theorem trim_eq_drop_dropLast (m : Bytes) (h : motdIsCommand m = true) :
    strings.TrimSuffix (strings.TrimPrefix m (ascii "$(")) (ascii ")") = (m.drop 2).dropLast := by
  obtain ⟨cmd, rfl⟩ := (motdIsCommand_iff m).mp h
  rw [trim_command]
  simp [ascii_dollarParen, ascii_closeParen]

theorem banner_plain (o : Oracle) (s : St) (h : motdIsCommand s.term.motd = false) :
    writeBanner (resolveMOTD o s) =
      { s with
        term := { s.term with motd := s.term.motd ++ ascii "\n" },
        trace := s.trace ++
          [Event.proxyWrite s.term.proxy (bannerChunk (s.term.motd ++ ascii "\n"))] } := by
  simp [writeBanner, resolveMOTD, h, St.log]

theorem banner_command (o : Oracle) (s : St) (h : motdIsCommand s.term.motd = true) :
    writeBanner (resolveMOTD o s) =
      { s with
        term := { s.term with
          motd := match o.cmdOutput (motdCmd s.term.shell ((s.term.motd.drop 2).dropLast)) with
            | (_, some err) => err.msg
            | (output, none) => output },
        trace := s.trace ++
          [Event.cmdOutput (motdCmd s.term.shell ((s.term.motd.drop 2).dropLast)),
            Event.proxyWrite s.term.proxy (bannerChunk
              (match o.cmdOutput (motdCmd s.term.shell ((s.term.motd.drop 2).dropLast)) with
                | (_, some err) => err.msg
                | (output, none) => output))] } := by
  simp only [writeBanner, resolveMOTD, h, if_true, trim_eq_drop_dropLast _ h, log_term]
  rcases hc : o.cmdOutput (motdCmd s.term.shell ((s.term.motd.drop 2).dropLast)) with
    ⟨out, _ | err⟩
  · simp [St.log, hc]
  · simp [St.log, hc]

theorem shellCmd_congr (t t' : Terminal) (hs : t'.shell = t.shell) (hd : t'.dir = t.dir) :
    shellCmd t' = shellCmd t := by
  simp [shellCmd, hs, hd]

/-- A guard that lets `Run` through changes the environment at most and makes
the calls `guardEvents`. -/
theorem guard_pass (s : St)
    (hp : ¬ (s.term.enableNesting = false ∧ Getenv s.env SHOX ≠ [])) :
    ∃ s1, nestingGuard s = (s1, none) ∧ s1.term = s.term ∧ s1.tty = s.tty ∧
      s1.trace = s.trace ++ guardEvents s.term := by
  cases hn : s.term.enableNesting with
  | true => exact ⟨s, guard_skip s hn, rfl, rfl, by simp [guardEvents, hn]⟩
  | false =>
    have he : Getenv s.env SHOX = [] := by
      by_contra hne
      exact hp ⟨hn, hne⟩
    exact ⟨_, guard_set s hn he, rfl, rfl, by simp [guardEvents, hn]⟩

theorem Run_pass_spawn (o : Oracle) (s : St) (commands : List Bytes)
    (hp : ¬ (s.term.enableNesting = false ∧ Getenv s.env SHOX ≠ [])) :
    ∃ s1, s1.term = s.term ∧ s1.tty = s.tty ∧
      s1.trace = s.trace ++ guardEvents s.term ++ [Event.proxyStart s.term.proxy] ∧
      Run o s commands =
        spawn o (writeBanner (resolveMOTD o s1)) [Deferred.proxyClose s.term.proxy] commands := by
  obtain ⟨s0, hg, hterm, htty, htrace⟩ := guard_pass s hp
  refine ⟨s0.log (Event.proxyStart s0.term.proxy), hterm, htty, ?_, ?_⟩
  · rw [log_trace, htrace, hterm]
  · rw [Run_pass o s s0 commands hg, hterm]

/-! ### Terminal settings and outcome of the phases -/

theorem unwind_tty (o : Oracle) (stack : List Deferred) (s : St)
    (h : ∀ d ∈ stack, ∀ old, d ≠ Deferred.restore old) : (unwind o s stack).tty = s.tty := by
  induction stack generalizing s with
  | nil => rfl
  | cons d ds ih =>
    simp only [unwind, List.foldl_cons]
    have hd : (runDeferred o s d).tty = s.tty := by
      cases d with
      | proxyClose p => rfl
      | ptyClose => rfl
      | restore old => exact absurd rfl (h _ (List.mem_cons_self _ _) old)
    have := ih (runDeferred o s d) (fun d' hd' => h d' (List.mem_cons_of_mem _ hd'))
    simp only [unwind] at this
    rw [this, hd]

theorem unwind_restore_tty (o : Oracle) (stack : List Deferred) (s : St) (old : Termios)
    (h : ∀ d ∈ stack, ∀ old, d ≠ Deferred.restore old) :
    (unwind o s (Deferred.restore old :: stack)).tty =
      (if o.restoreErr = none then old else s.tty) := by
  have := unwind_tty o stack (runDeferred o s (Deferred.restore old)) h
  simp only [unwind, List.foldl_cons] at this ⊢
  rw [this]
  simp only [runDeferred]
  cases o.restoreErr <;> simp

theorem session_noraw (o : Oracle) (s : St) (stack : List Deferred) (commands : List Bytes)
    (err : GoError) (hr : o.makeRawErr = some err)
    (h : ∀ d ∈ stack, ∀ old, d ≠ Deferred.restore old) :
    (session o s stack commands).1.tty = s.tty ∧
    (session o s stack commands).2 = Outcome.panicked err := by
  simp only [session, hr]
  exact ⟨unwind_tty o stack _ h, trivial⟩

theorem session_raw (o : Oracle) (s : St) (stack : List Deferred) (commands : List Bytes)
    (hr : o.makeRawErr = none) (h : ∀ d ∈ stack, ∀ old, d ≠ Deferred.restore old) :
    (session o s stack commands).1.tty =
      (if o.restoreErr = none then s.tty else { s.tty with raw := true }) ∧
    (session o s stack commands).2 =
      (match o.copyLoop with
        | CallResult.panics v => Outcome.panicked v
        | CallResult.returns _ => Outcome.returned none) := by
  simp only [session, hr]
  cases o.copyLoop with
  | panics v =>
    simp only [unwind_restore_tty o stack _ _ h]
    simp [(writeCommands_frame o commands _ 0).2.2.1]
  | returns e =>
    simp only [unwind_restore_tty o stack _ _ h]
    simp [(writeCommands_frame o commands _ 0).2.2.1]

theorem spawn_fail (o : Oracle) (s : St) (stack : List Deferred) (commands : List Bytes)
    (err : GoError) (hf : o.ptyStart (shellCmd s.term) = Except.error err)
    (h : ∀ d ∈ stack, ∀ old, d ≠ Deferred.restore old) :
    (spawn o s stack commands).1.tty = s.tty ∧
    (spawn o s stack commands).2 = Outcome.returned (some err) := by
  simp only [spawn, log_term, hf]
  exact ⟨unwind_tty o stack _ h, trivial⟩

theorem spawn_ok (o : Oracle) (s : St) (stack : List Deferred) (commands : List Bytes)
    (f : PtyRef) (hf : o.ptyStart (shellCmd s.term) = Except.ok f) :
    spawn o s stack commands =
      session o
        (((St.log { s.log (Event.ptyStart (shellCmd s.term)) with
              term := { s.term with pty := some f } } Event.signalNotify).log
            Event.goResizeWorker).log Event.sendSIGWINCH)
        (Deferred.ptyClose :: stack) commands := by
  simp only [spawn, log_term, hf]

/-- The state in which a `Run` that got past the guard reaches line 111. -/
theorem Run_pass_banner (o : Oracle) (s : St) (commands : List Bytes)
    (hp : ¬ (s.term.enableNesting = false ∧ Getenv s.env SHOX ≠ [])) :
    ∃ s2 l chunk, Run o s commands = spawn o s2 [Deferred.proxyClose s.term.proxy] commands ∧
      s2.tty = s.tty ∧ s2.term.shell = s.term.shell ∧ s2.term.dir = s.term.dir ∧
      s2.term.proxy = s.term.proxy ∧
      s2.trace = s.trace ++ guardEvents s.term ++ Event.proxyStart s.term.proxy ::
        (l ++ [Event.proxyWrite s.term.proxy chunk]) ∧
      ∀ e ∈ l, ∃ c, e = Event.cmdOutput c := by
  obtain ⟨s1, hterm, htty, htrace, hrun⟩ := Run_pass_spawn o s commands hp
  obtain ⟨l, hl, hcmd⟩ := resolveMOTD_trace o s1
  have hfr := resolveMOTD_frame o s1
  refine ⟨writeBanner (resolveMOTD o s1), l, bannerChunk (resolveMOTD o s1).term.motd, hrun,
    ?_, ?_, ?_, ?_, ?_, hcmd⟩
  · simp [writeBanner, hfr.2.1, htty]
  · simp [writeBanner, hfr.2.2.1, hterm]
  · simp [writeBanner, hfr.2.2.2.1, hterm]
  · simp [writeBanner, hfr.2.2.2.2, hterm]
  · simp [writeBanner, hl, htrace, hfr.2.2.2.2, hterm]

theorem writeEvents_isPtyWrite (o : Oracle) (f : Option PtyRef) (commands : List Bytes)
    (i : Nat) : ∀ e ∈ writeEvents o f i commands, ∃ data failed, e = Event.ptyWrite f data failed := by
  induction commands generalizing i with
  | nil => simp [writeEvents]
  | cons c cs ih =>
    intro e he
    simp only [writeEvents, List.mem_cons] at he
    rcases he with rfl | he
    · exact ⟨_, _, rfl⟩
    · exact ih (i + 1) e he

theorem writeEvents_eq_map (o : Oracle) (f : Option PtyRef) (commands : List Bytes) (i : Nat) :
    writeEvents o f i commands =
      (commands.enumFrom i).map
        (fun ic => Event.ptyWrite f (ic.2 ++ [0x0a]) (o.ptyWriteErr ic.1).isSome) := by
  induction commands generalizing i with
  | nil => rfl
  | cons c cs ih =>
    simp only [writeEvents, List.enumFrom_cons, List.map_cons, ih (i + 1), ascii_newline]

theorem ptyWritten_append (l l' : List Event) :
    ptyWritten (l ++ l') = ptyWritten l ++ ptyWritten l' := by
  induction l with
  | nil => rfl
  | cons e es ih =>
    cases e <;> simp [ptyWritten, ih]

theorem ptyWritten_writeEvents (o : Oracle) (f : Option PtyRef) (commands : List Bytes)
    (i : Nat) : ptyWritten (writeEvents o f i commands) = commands.map (fun c => c ++ [0x0a]) := by
  induction commands generalizing i with
  | nil => rfl
  | cons c cs ih => simp [writeEvents, ptyWritten, ih (i + 1), ascii_newline]

theorem ptyWritten_cmdOutputs (l : List Event) (h : ∀ e ∈ l, ∃ c, e = Event.cmdOutput c) :
    ptyWritten l = [] := by
  induction l with
  | nil => rfl
  | cons e es ih =>
    obtain ⟨c, rfl⟩ := h e (List.mem_cons_self _ _)
    simp only [ptyWritten]
    exact ih (fun e he => h e (List.mem_cons_of_mem _ he))

theorem ptyWritten_guardEvents (t : Terminal) : ptyWritten (guardEvents t) = [] := by
  unfold guardEvents
  split <;> rfl

/-- The calls, the final terminal settings and the outcome of a `Run` that gets
past the guard, spawns the shell as `f` and enters raw mode. -/
theorem Run_raw_path (o : Oracle) (s : St) (commands : List Bytes) (f : PtyRef)
    (hp : ¬ (s.term.enableNesting = false ∧ Getenv s.env SHOX ≠ []))
    (hf : o.ptyStart (shellCmd s.term) = Except.ok f) (hr : o.makeRawErr = none) :
    (∃ l chunk, newEvents s (Run o s commands).1 =
        (guardEvents s.term ++ Event.proxyStart s.term.proxy ::
          (l ++ [Event.proxyWrite s.term.proxy chunk, Event.ptyStart (shellCmd s.term),
            Event.signalNotify, Event.goResizeWorker, Event.sendSIGWINCH])) ++
        Event.makeRaw ::
        ((writeEvents o (some f) 0 commands ++
          [Event.goCopyStdinToPty (some f), Event.goCopyProxyToStdout s.term.proxy,
            Event.copyPtyToProxy s.term.proxy (some f)] ++
          (match o.copyLoop with
            | CallResult.panics _ => []
            | CallResult.returns _ => [Event.printf (ascii "\r\n")])) ++
        [Event.restore s.tty, Event.ptyClose (some f), Event.proxyClose s.term.proxy]) ∧
      ∀ e ∈ l, ∃ c, e = Event.cmdOutput c) ∧
    (Run o s commands).1.tty =
      (if o.restoreErr = none then s.tty else { s.tty with raw := true }) ∧
    (Run o s commands).2 =
      (match o.copyLoop with
        | CallResult.panics v => Outcome.panicked v
        | CallResult.returns _ => Outcome.returned none) := by
  obtain ⟨s2, l, chunk, hrun, htty, hshell, hdir, hproxy, htrace, hl⟩ :=
    Run_pass_banner o s commands hp
  have hf2 : o.ptyStart (shellCmd s2.term) = Except.ok f := by
    rw [shellCmd_congr s.term s2.term hshell hdir]
    exact hf
  have hstack : ∀ d ∈ [Deferred.ptyClose, Deferred.proxyClose s.term.proxy],
      ∀ old, d ≠ Deferred.restore old := by
    intro d hd old
    simp only [List.mem_cons, List.mem_singleton, List.mem_nil_iff, or_false] at hd
    rcases hd with rfl | rfl <;> exact fun h => Deferred.noConfusion h
  rw [hrun, spawn_ok o s2 _ commands f hf2]
  refine ⟨⟨l, chunk, ?_, hl⟩, ?_, ?_⟩
  · apply newEvents_append
    rw [(session_frame o _ _ _).2.2]
    simp only [sessionEvents, hr, log_trace, log_term, log_tty, htrace, htty, hproxy,
      shellCmd_congr s.term s2.term hshell hdir, deferredEvent, List.map_cons, List.map_nil]
    simp
  · rw [(session_raw o _ _ commands hr hstack).1]
    simp [htty]
  · rw [(session_raw o _ _ commands hr hstack).2]

/-! ## The nesting guard -/

/-- C1: `Run` is rejected by the nesting guard, with the error "shox is already
running in this terminal", if and only if nesting is not allowed and `SHOX` is
not empty (also after `SetNestingAllowed`); a rejected `Run` only reads `SHOX`:
it makes no other call (the proxy is not started and not written to, no shell
is spawned) and leaves the environment, the terminal value and the terminal
settings as they were. -/
theorem Run_nesting_guard (o : Oracle) (s : St) (commands : List Bytes) :
    (rejectedByGuard s (Run o s commands) ↔
      (s.term.enableNesting = false ∧ Getenv s.env SHOX ≠ [])) ∧
    (∀ allowed : Bool,
      rejectedByGuard (SetNestingAllowed s allowed) (Run o (SetNestingAllowed s allowed) commands) ↔
        (allowed = false ∧ Getenv s.env SHOX ≠ [])) ∧
    (rejectedByGuard s (Run o s commands) →
      (Run o s commands).2 =
        Outcome.returned (some ⟨ascii "shox is already running in this terminal"⟩) ∧
      newEvents s (Run o s commands).1 = [Event.getenv SHOX] ∧
      (Run o s commands).1.env = s.env ∧
      (Run o s commands).1.term = s.term ∧
      (Run o s commands).1.tty = s.tty) := by
  refine ⟨rejectedByGuard_iff o s commands, ?_, ?_⟩
  · intro allowed
    exact rejectedByGuard_iff o (SetNestingAllowed s allowed) commands
  · intro hr
    obtain ⟨hn, he⟩ := (rejectedByGuard_iff o s commands).mp hr
    rw [Run_reject o s commands hn he]
    refine ⟨rfl, ?_, rfl, rfl, rfl⟩
    exact newEvents_append _ _ _ (by simp)

/-- C1, at a sample state in which `SHOX` is set: the `Run` is rejected. -/
theorem Run_nesting_guard_witness :
    rejectedByGuard nestedSt (Run sampleOracle nestedSt []) ∧
    newEvents nestedSt (Run sampleOracle nestedSt []).1 = [Event.getenv SHOX] ∧
    (Run sampleOracle nestedSt []).1.env = nestedSt.env :=
  have hr : rejectedByGuard nestedSt (Run sampleOracle nestedSt []) :=
    (Run_nesting_guard sampleOracle nestedSt []).1.mpr ⟨by decide, by decide⟩
  ⟨hr, ((Run_nesting_guard sampleOracle nestedSt []).2.2 hr).2.1,
    ((Run_nesting_guard sampleOracle nestedSt []).2.2 hr).2.2.1⟩

/-- C2: with nesting not allowed and `SHOX` empty, `Run` reads `SHOX`, sets it
to "1" and only then starts the proxy; `SHOX` is "1" in the environment `Run`
leaves, so every later `Run` with nesting not allowed in that environment is
rejected by the guard. With nesting allowed, `Run` leaves the environment as it
was and never calls `Getenv` or `Setenv`. -/
theorem Run_sets_marker (o : Oracle) (s : St) (commands : List Bytes) :
    (s.term.enableNesting = false → Getenv s.env SHOX = [] →
      (∃ rest, newEvents s (Run o s commands).1 =
        Event.getenv SHOX :: Event.setenv SHOX (ascii "1") ::
          Event.proxyStart s.term.proxy :: rest) ∧
      Getenv (Run o s commands).1.env SHOX = ascii "1" ∧
      ∀ (o2 : Oracle) (s2 : St) (commands2 : List Bytes),
        s2.term.enableNesting = false → s2.env = (Run o s commands).1.env →
        rejectedByGuard s2 (Run o2 s2 commands2)) ∧
    (s.term.enableNesting = true →
      (Run o s commands).1.env = s.env ∧
      ∀ e ∈ newEvents s (Run o s commands).1,
        (∀ key, e ≠ Event.getenv key) ∧ (∀ key val, e ≠ Event.setenv key val)) := by
  constructor
  · intro hn he
    have hp : ¬ (s.term.enableNesting = false ∧ Getenv s.env SHOX ≠ []) := fun h => h.2 he
    obtain ⟨⟨rest, hrest⟩, henv⟩ := Run_pass_trace o s commands hp
    have hshox : Getenv (Run o s commands).1.env SHOX = ascii "1" := by
      rw [henv, hn]
      exact Getenv_Setenv_SHOX s.env
    refine ⟨⟨rest, ?_⟩, hshox, ?_⟩
    · apply newEvents_append
      rw [hrest]
      simp [guardEvents, hn]
    · intro o2 s2 commands2 hn2 henv2
      apply (rejectedByGuard_iff o2 s2 commands2).mpr
      refine ⟨hn2, ?_⟩
      rw [henv2, hshox]
      decide
  · intro hn
    have hp : ¬ (s.term.enableNesting = false ∧ Getenv s.env SHOX ≠ []) := by
      rintro ⟨h, -⟩
      rw [hn] at h
      exact Bool.noConfusion h
    refine ⟨by rw [(Run_pass_trace o s commands hp).2, hn]; simp, ?_⟩
    rw [Run_pass o s s commands (guard_skip s hn)]
    obtain ⟨l, chunk, sp, htr, hl, hsp⟩ := afterGuard_events o s
      [Deferred.proxyClose s.term.proxy] commands
    rw [newEvents_append _ _ _ htr]
    intro e he
    simp only [List.mem_cons, List.mem_append] at he
    rcases he with rfl | he | rfl | he
    · exact ⟨fun _ h => Event.noConfusion h, fun _ _ h => Event.noConfusion h⟩
    · obtain ⟨c, rfl⟩ := hl e he
      exact ⟨fun _ h => Event.noConfusion h, fun _ _ h => Event.noConfusion h⟩
    · exact ⟨fun _ h => Event.noConfusion h, fun _ _ h => Event.noConfusion h⟩
    · have := hsp e he
      constructor
      · rintro key rfl
        exact Bool.noConfusion this
      · rintro key val rfl
        exact Bool.noConfusion this

/-- C2, at the sample state (nesting not allowed, `SHOX` not set): after the
`Run`, `SHOX` is "1" and a second `Run` is rejected. -/
theorem Run_sets_marker_witness :
    Getenv (Run sampleOracle sampleSt []).1.env SHOX = ascii "1" ∧
    rejectedByGuard { sampleSt with env := (Run sampleOracle sampleSt []).1.env }
      (Run sampleOracle { sampleSt with env := (Run sampleOracle sampleSt []).1.env } []) :=
  have h := (Run_sets_marker sampleOracle sampleSt []).1 (by decide) (by decide)
  ⟨h.2.1, h.2.2 sampleOracle { sampleSt with env := (Run sampleOracle sampleSt []).1.env } []
    rfl rfl⟩

/-! ## Output visibility -/

/-- C6: `hideAllOutput` is true after `HideOutput` and false after `ShowOutput`,
whatever the state before; each of the two is idempotent, after any sequence of
the two the last call decides, and a terminal fresh from `NewTerminal` reports
false (output visible). -/
theorem hideAllOutput_toggle (s : St) :
    hideAllOutput (HideOutput s) = true ∧
    hideAllOutput (ShowOutput s) = false ∧
    HideOutput (HideOutput s) = HideOutput s ∧
    ShowOutput (ShowOutput s) = ShowOutput s ∧
    (∀ (calls : List Bool) (last : Bool),
      hideAllOutput ((calls ++ [last]).foldl toggleOutput s) = last) ∧
    (∀ env tty p, hideAllOutput (NewTerminal env tty p) = false) := by
  refine ⟨rfl, rfl, rfl, rfl, ?_, fun _ _ _ => rfl⟩
  intro calls last
  rw [List.foldl_append]
  cases last <;> rfl

/-- C7: `HideOutput` and `ShowOutput` make no call (the trace is unchanged, so
the proxy and its decorators are not touched) and change no field of the
terminal other than `hideOutput`; the environment and the terminal settings
stay as they were, and from a state with visible output the pair returns
exactly the state before. -/
theorem HideOutput_ShowOutput_frame (s : St) :
    ((HideOutput s).trace = s.trace ∧ (ShowOutput s).trace = s.trace) ∧
    ((HideOutput s).term.proxy = s.term.proxy ∧ (ShowOutput s).term.proxy = s.term.proxy) ∧
    ((HideOutput s).term.shell = s.term.shell ∧ (ShowOutput s).term.shell = s.term.shell) ∧
    ((HideOutput s).term.dir = s.term.dir ∧ (ShowOutput s).term.dir = s.term.dir) ∧
    ((HideOutput s).term.motd = s.term.motd ∧ (ShowOutput s).term.motd = s.term.motd) ∧
    ((HideOutput s).term.pty = s.term.pty ∧ (ShowOutput s).term.pty = s.term.pty) ∧
    ((HideOutput s).term.enableNesting = s.term.enableNesting ∧
      (ShowOutput s).term.enableNesting = s.term.enableNesting) ∧
    ((HideOutput s).env = s.env ∧ (ShowOutput s).env = s.env) ∧
    ((HideOutput s).tty = s.tty ∧ (ShowOutput s).tty = s.tty) ∧
    (hideAllOutput s = false → ShowOutput (HideOutput s) = s) := by
  refine ⟨⟨rfl, rfl⟩, ⟨rfl, rfl⟩, ⟨rfl, rfl⟩, ⟨rfl, rfl⟩, ⟨rfl, rfl⟩, ⟨rfl, rfl⟩, ⟨rfl, rfl⟩,
    ⟨rfl, rfl⟩, ⟨rfl, rfl⟩, ?_⟩
  intro h
  obtain ⟨⟨shell, dir, proxy, pty, nest, hide, motd⟩, env, tty, trace⟩ := s
  simp only [hideAllOutput] at h
  subst h
  rfl

/-- C7, at the sample state, whose output is visible. -/
theorem HideOutput_ShowOutput_frame_witness :
    ShowOutput (HideOutput sampleSt) = sampleSt :=
  (HideOutput_ShowOutput_frame sampleSt).2.2.2.2.2.2.2.2.2 rfl

/-! ## The banner -/

/-- C3: for a MOTD `m` that is not of the command form, a `Run` that gets past
the nesting guard makes, up to the launch of the shell, the calls of the guard,
then `proxy.Start`, then exactly one `proxy.Write`, whose chunk is ESC `c`, `m`,
"\n", "\r", and then launches the shell; it makes no further write to the proxy
itself. For the empty MOTD the chunk is "\x1bc\n\r". -/
theorem Run_banner_plain (o : Oracle) (s : St) (m : Bytes) (commands : List Bytes)
    (hm : motdIsCommand m = false)
    (hp : ¬ (s.term.enableNesting = false ∧ Getenv s.env SHOX ≠ [])) :
    (∃ rest, newEvents (SetMOTD s m) (Run o (SetMOTD s m) commands).1 =
        guardEvents s.term ++
          [Event.proxyStart s.term.proxy,
            Event.proxyWrite s.term.proxy ([0x1b, 0x63] ++ m ++ [0x0a] ++ [0x0d]),
            Event.ptyStart (shellCmd s.term)] ++ rest ∧
      ∀ e ∈ rest, ∀ p chunk, e ≠ Event.proxyWrite p chunk) ∧
    ([0x1b, 0x63] ++ ([] : Bytes) ++ [0x0a] ++ [0x0d] = ascii "\x1bc\n\r") := by
  refine ⟨?_, by decide⟩
  obtain ⟨s1, hterm, htty, htrace, hrun⟩ := Run_pass_spawn o (SetMOTD s m) commands hp
  have hmotd : motdIsCommand s1.term.motd = false := by rw [hterm]; exact hm
  rw [hrun, banner_plain o s1 hmotd]
  obtain ⟨rest, hrest⟩ := spawnEvents_head o
    { s1.term with motd := s1.term.motd ++ ascii "\n" } s1.tty
    [Deferred.proxyClose (SetMOTD s m).term.proxy] commands
  have hafter := spawnEvents_afterBanner o
    { s1.term with motd := s1.term.motd ++ ascii "\n" } s1.tty
    [Deferred.proxyClose (SetMOTD s m).term.proxy] commands
  refine ⟨rest, ?_, ?_⟩
  · apply newEvents_append
    rw [(spawn_frame o _ _ _).2]
    simp only []
    rw [hrest, htrace]
    simp [SetMOTD, bannerChunk, ascii_newline, shellCmd, hterm, guardEvents]
  · intro e he p chunk hpw
    have h := hafter e (by rw [hrest]; exact List.mem_cons_of_mem _ he)
    rw [hpw] at h
    exact Bool.noConfusion h

/-- C3, at the sample state with the MOTD "hi". -/
theorem Run_banner_plain_witness :
    ∃ rest, newEvents (SetMOTD sampleSt (ascii "hi"))
        (Run sampleOracle (SetMOTD sampleSt (ascii "hi")) []).1 =
        guardEvents sampleSt.term ++
          [Event.proxyStart sampleSt.term.proxy,
            Event.proxyWrite sampleSt.term.proxy ([0x1b, 0x63] ++ ascii "hi" ++ [0x0a] ++ [0x0d]),
            Event.ptyStart (shellCmd sampleSt.term)] ++ rest ∧
      ∀ e ∈ rest, ∀ p chunk, e ≠ Event.proxyWrite p chunk :=
  (Run_banner_plain sampleOracle sampleSt (ascii "hi") [] (by decide) (by decide)).1

/-- C4: the MOTD is a command exactly when it is `$(` ++ cmd ++ `)` (so `$()` is
one, with the empty command, and `$(` and `$)` are not). For such a MOTD a
`Run` that gets past the guard executes `shell -c cmd` once, after `proxy.Start`,
cmd being the MOTD without its first two bytes and its last byte, and writes to
the proxy ESC `c`, then the standard output of the command (the text of the
error when the command fails), then "\r", with no newline added. For any other
MOTD no command is executed. -/
theorem Run_banner_command (o : Oracle) (s : St) (m : Bytes) (commands : List Bytes)
    (hp : ¬ (s.term.enableNesting = false ∧ Getenv s.env SHOX ≠ [])) :
    (motdIsCommand m = true ↔ ∃ cmd, m = ascii "$(" ++ cmd ++ ascii ")") ∧
    (motdIsCommand (ascii "$()") = true ∧ ((ascii "$()").drop 2).dropLast = [] ∧
      motdIsCommand (ascii "$(") = false ∧ motdIsCommand (ascii "$)") = false) ∧
    (motdIsCommand m = true →
      ∃ rest, newEvents (SetMOTD s m) (Run o (SetMOTD s m) commands).1 =
        guardEvents s.term ++
          [Event.proxyStart s.term.proxy,
            Event.cmdOutput
              { name := s.term.shell, args := [ascii "-c", (m.drop 2).dropLast], dir := [] },
            Event.proxyWrite s.term.proxy ([0x1b, 0x63] ++
              (match o.cmdOutput
                  { name := s.term.shell, args := [ascii "-c", (m.drop 2).dropLast], dir := [] } with
                | (_, some err) => err.msg
                | (output, none) => output) ++ [0x0d]),
            Event.ptyStart (shellCmd s.term)] ++ rest ∧
        ∀ e ∈ rest, ∀ c, e ≠ Event.cmdOutput c) ∧
    (motdIsCommand m = false →
      ∀ e ∈ newEvents (SetMOTD s m) (Run o (SetMOTD s m) commands).1,
        ∀ c, e ≠ Event.cmdOutput c) := by
  refine ⟨motdIsCommand_iff m, by decide, ?_, ?_⟩
  · intro hm
    obtain ⟨s1, hterm, htty, htrace, hrun⟩ := Run_pass_spawn o (SetMOTD s m) commands hp
    have hmotd : motdIsCommand s1.term.motd = true := by rw [hterm]; exact hm
    rw [hrun, banner_command o s1 hmotd]
    obtain ⟨rest, hrest⟩ := spawnEvents_head o
      { s1.term with
        motd := match o.cmdOutput (motdCmd s1.term.shell ((s1.term.motd.drop 2).dropLast)) with
          | (_, some err) => err.msg
          | (output, none) => output } s1.tty
      [Deferred.proxyClose (SetMOTD s m).term.proxy] commands
    have hafter := spawnEvents_afterBanner o
      { s1.term with
        motd := match o.cmdOutput (motdCmd s1.term.shell ((s1.term.motd.drop 2).dropLast)) with
          | (_, some err) => err.msg
          | (output, none) => output } s1.tty
      [Deferred.proxyClose (SetMOTD s m).term.proxy] commands
    refine ⟨rest, ?_, ?_⟩
    · apply newEvents_append
      rw [(spawn_frame o _ _ _).2]
      simp only []
      rw [hrest, htrace]
      simp [SetMOTD, bannerChunk, motdCmd, shellCmd, hterm, guardEvents]
    · intro e he c hc
      have h := hafter e (by rw [hrest]; exact List.mem_cons_of_mem _ he)
      rw [hc] at h
      exact Bool.noConfusion h
  · intro hm
    obtain ⟨s1, hterm, htty, htrace, hrun⟩ := Run_pass_spawn o (SetMOTD s m) commands hp
    have hmotd : motdIsCommand s1.term.motd = false := by rw [hterm]; exact hm
    have hafter := spawnEvents_afterBanner o
      { s1.term with motd := s1.term.motd ++ ascii "\n" } s1.tty
      [Deferred.proxyClose (SetMOTD s m).term.proxy] commands
    have hnew : newEvents (SetMOTD s m) (Run o (SetMOTD s m) commands).1 =
        guardEvents s.term ++ [Event.proxyStart s.term.proxy,
          Event.proxyWrite s.term.proxy (bannerChunk (m ++ ascii "\n"))] ++
          spawnEvents o { s1.term with motd := s1.term.motd ++ ascii "\n" } s1.tty
            [Deferred.proxyClose (SetMOTD s m).term.proxy] commands := by
      apply newEvents_append
      rw [hrun, banner_plain o s1 hmotd, (spawn_frame o _ _ _).2]
      simp only []
      rw [htrace, hterm]
      simp [SetMOTD, guardEvents]
    rw [hnew]
    intro e he c hc
    simp only [List.mem_append, List.mem_cons, List.mem_singleton, guardEvents] at he
    subst hc
    rcases he with (he | he) | he
    · split at he <;> simp at he
    · simp at he
    · exact Bool.noConfusion (hafter _ he)

/-- C4, at the sample state with the MOTD `$(date)`: `/bin/sh -c date` is run and
its output `hi` is the banner. -/
theorem Run_banner_command_witness :
    ∃ rest, newEvents (SetMOTD sampleSt (ascii "$(date)"))
        (Run sampleOracle (SetMOTD sampleSt (ascii "$(date)")) []).1 =
      guardEvents sampleSt.term ++
        [Event.proxyStart sampleSt.term.proxy,
          Event.cmdOutput
            { name := sampleSt.term.shell,
              args := [ascii "-c", ((ascii "$(date)").drop 2).dropLast], dir := [] },
          Event.proxyWrite sampleSt.term.proxy ([0x1b, 0x63] ++
            (match sampleOracle.cmdOutput
                { name := sampleSt.term.shell,
                  args := [ascii "-c", ((ascii "$(date)").drop 2).dropLast], dir := [] } with
              | (_, some err) => err.msg
              | (output, none) => output) ++ [0x0d]),
          Event.ptyStart (shellCmd sampleSt.term)] ++ rest ∧
      ∀ e ∈ rest, ∀ c, e ≠ Event.cmdOutput c :=
  (Run_banner_command sampleOracle sampleSt (ascii "$(date)") [] (by decide)).2.2.1 (by decide)

/-! ## The resize worker -/

/-- C5: in one iteration of the resize worker, when the size query succeeds with
(rows, cols, x, y), `proxy.HandleResize(rows, cols)` is called exactly once and
the size then applied to the pty has the rows and cols `HandleResize` returned
and the x, y of the query; when the query fails the iteration makes no other
call. The worker runs one such iteration per signal, in order. -/
theorem resizeIteration_spec (r : ResizeOracle) (s : St) :
    (∀ rows cols x y, r.getsize = Except.ok ⟨rows, cols, x, y⟩ →
      newEvents s (resizeIteration r s) =
        [Event.ptyGetsizeFull,
          Event.proxyHandleResize s.term.proxy rows cols,
          Event.ptySetsize s.term.pty
            ⟨(r.handleResize rows cols).1, (r.handleResize rows cols).2, x, y⟩]) ∧
    (∀ err, r.getsize = Except.error err →
      newEvents s (resizeIteration r s) = [Event.ptyGetsizeFull]) ∧
    (∀ signals, resizeWorker s (signals ++ [r]) = resizeIteration r (resizeWorker s signals)) := by
  refine ⟨?_, ?_, ?_⟩
  · intro rows cols x y h
    apply newEvents_append
    simp [resizeIteration, h]
  · intro err h
    apply newEvents_append
    simp [resizeIteration, h]
  · intro signals
    simp [resizeWorker, List.foldl_append]

/-- C5, for a 24x80 terminal of 640x480 pixels whose proxy keeps one row. -/
theorem resizeIteration_spec_witness :
    newEvents sampleSt
        (resizeIteration
          { getsize := Except.ok ⟨24, 80, 640, 480⟩,
            handleResize := fun rows cols => (rows - 1, cols),
            setsizeErr := none } sampleSt) =
      [Event.ptyGetsizeFull,
        Event.proxyHandleResize sampleSt.term.proxy 24 80,
        Event.ptySetsize sampleSt.term.pty ⟨23, 80, 640, 480⟩] :=
  (resizeIteration_spec
    { getsize := Except.ok ⟨24, 80, 640, 480⟩,
      handleResize := fun rows cols => (rows - 1, cols),
      setsizeErr := none } sampleSt).1 24 80 640 480 rfl

/-! ## Raw mode -/

/-- C8 as stated fails: with an oracle whose `terminal.Restore` fails, `Run`
enters raw mode, calls `Restore` with the saved settings, returns nil, and the
terminal is still in raw mode. -/
theorem Run_restore_counterexample :
    sampleSt.tty.raw = false ∧
    Event.makeRaw ∈ newEvents sampleSt (Run restoreFailsOracle sampleSt []).1 ∧
    Event.restore sampleSt.tty ∈ newEvents sampleSt (Run restoreFailsOracle sampleSt []).1 ∧
    (Run restoreFailsOracle sampleSt []).2 = Outcome.returned none ∧
    (Run restoreFailsOracle sampleSt []).1.tty.raw = true := by
  decide

/-- C8, amended: when `Run` has put stdin into raw mode, it calls `Restore`
exactly once before it returns or panics, with the settings saved by `MakeRaw`,
after everything else it does in raw mode and before the pty and the proxy are
closed; when that call succeeds the terminal settings are the saved ones again.
On the exit paths on which raw mode is not entered (rejection by the guard,
failure to spawn the shell, failure of `MakeRaw`) the terminal settings are
never changed. -/
theorem Run_restore_attempted (o : Oracle) (s : St) (commands : List Bytes) :
    (∀ f, ¬ (s.term.enableNesting = false ∧ Getenv s.env SHOX ≠ []) →
      o.ptyStart (shellCmd s.term) = Except.ok f → o.makeRawErr = none →
      (∃ pre mid, newEvents s (Run o s commands).1 =
          pre ++ Event.makeRaw :: (mid ++
            [Event.restore s.tty, Event.ptyClose (some f), Event.proxyClose s.term.proxy]) ∧
        ∀ e ∈ pre ++ mid, e.isRawCall = false) ∧
      (o.restoreErr = none → (Run o s commands).1.tty = s.tty) ∧
      ((Run o s commands).2 =
        (match o.copyLoop with
          | CallResult.panics v => Outcome.panicked v
          | CallResult.returns _ => Outcome.returned none))) ∧
    (((s.term.enableNesting = false ∧ Getenv s.env SHOX ≠ []) ∨
        (∃ err, o.ptyStart (shellCmd s.term) = Except.error err) ∨
        (∃ err, o.makeRawErr = some err)) →
      (Run o s commands).1.tty = s.tty ∧
      ∀ old, Event.restore old ∉ newEvents s (Run o s commands).1) := by
  constructor
  · intro f hp hf hr
    obtain ⟨⟨l, chunk, hnew, hl⟩, htty, hout⟩ := Run_raw_path o s commands f hp hf hr
    refine ⟨⟨_, _, hnew, ?_⟩, ?_, hout⟩
    · intro e he
      simp only [List.mem_append, List.mem_cons, List.mem_singleton, guardEvents] at he
      rcases he with (he | rfl | he | he) | (he | he) | he
      · split at he
        · simp at he
        · simp only [List.mem_cons, List.mem_singleton, List.mem_nil_iff, or_false] at he
          rcases he with rfl | rfl <;> rfl
      · rfl
      · obtain ⟨c, rfl⟩ := hl e he
        rfl
      · simp only [List.mem_nil_iff, or_false] at he
        rcases he with rfl | rfl | rfl | rfl | rfl <;> rfl
      · obtain ⟨data, failed, rfl⟩ := writeEvents_isPtyWrite o _ _ _ e he
        rfl
      · simp only [List.mem_nil_iff, or_false] at he
        rcases he with rfl | rfl | rfl <;> rfl
      · cases hc : o.copyLoop with
        | panics v => rw [hc] at he; simp at he
        | returns r =>
          rw [hc] at he
          simp only [List.mem_singleton] at he
          subst he
          rfl
    · intro hre
      rw [htty, if_pos hre]
  · intro hcase
    by_cases hrej : s.term.enableNesting = false ∧ Getenv s.env SHOX ≠ []
    · rw [Run_reject o s commands hrej.1 hrej.2]
      refine ⟨rfl, ?_⟩
      intro old
      rw [newEvents_append _ _ [Event.getenv SHOX] (by simp)]
      simp
    · obtain ⟨s2, l, chunk, hrun, htty, hshell, hdir, hproxy, htrace, hl⟩ :=
        Run_pass_banner o s commands hrej
      have hsc := shellCmd_congr s.term s2.term hshell hdir
      have hstack1 : ∀ d ∈ [Deferred.proxyClose s.term.proxy],
          ∀ old, d ≠ Deferred.restore old := by
        intro d hd old
        simp only [List.mem_singleton] at hd
        subst hd
        exact fun h => Deferred.noConfusion h
      have hstack2 : ∀ d ∈ [Deferred.ptyClose, Deferred.proxyClose s.term.proxy],
          ∀ old, d ≠ Deferred.restore old := by
        intro d hd old
        simp only [List.mem_cons, List.mem_singleton, List.mem_nil_iff, or_false] at hd
        rcases hd with rfl | rfl <;> exact fun h => Deferred.noConfusion h
      have hpre : ∀ old, Event.restore old ∉
          guardEvents s.term ++ Event.proxyStart s.term.proxy ::
            (l ++ [Event.proxyWrite s.term.proxy chunk]) := by
        intro old hmem
        simp only [List.mem_append, List.mem_cons, List.mem_singleton, guardEvents] at hmem
        rcases hmem with hmem | hmem | hmem | hmem
        · split at hmem <;> simp at hmem
        · exact Event.noConfusion hmem
        · obtain ⟨c, hc⟩ := hl _ hmem
          exact Event.noConfusion hc
        · simp at hmem
      have hnew : newEvents s (spawn o s2 [Deferred.proxyClose s.term.proxy] commands).1 =
          (guardEvents s.term ++ Event.proxyStart s.term.proxy ::
            (l ++ [Event.proxyWrite s.term.proxy chunk])) ++
          spawnEvents o s2.term s2.tty [Deferred.proxyClose s.term.proxy] commands := by
        apply newEvents_append
        rw [(spawn_frame o _ _ _).2, htrace]
        simp only [List.append_assoc]
      rw [hrun, hnew]
      rcases hcase with hcase | ⟨err, herr⟩ | ⟨err, herr⟩
      · exact absurd hcase hrej
      · rw [← hsc] at herr
        refine ⟨by rw [(spawn_fail o s2 _ commands err herr hstack1).1, htty], ?_⟩
        intro old hmem
        rcases List.mem_append.mp hmem with hmem | hmem
        · exact hpre old hmem
        · simp [spawnEvents, herr, deferredEvent] at hmem
      · cases hps : o.ptyStart (shellCmd s2.term) with
        | error e =>
          refine ⟨by rw [(spawn_fail o s2 _ commands e hps hstack1).1, htty], ?_⟩
          intro old hmem
          rcases List.mem_append.mp hmem with hmem | hmem
          · exact hpre old hmem
          · simp [spawnEvents, hps, deferredEvent] at hmem
        | ok f =>
          refine ⟨?_, ?_⟩
          · rw [spawn_ok o s2 _ commands f hps,
              (session_noraw o _ _ commands err herr hstack2).1]
            simp [htty]
          · intro old hmem
            rcases List.mem_append.mp hmem with hmem | hmem
            · exact hpre old hmem
            · simp [spawnEvents, hps, sessionEvents, herr, deferredEvent] at hmem

/-- C8 amended, at the sample state with an oracle whose calls all succeed: the
terminal settings after the `Run` are the ones before it. -/
theorem Run_restore_attempted_witness :
    (Run sampleOracle sampleSt []).1.tty = sampleSt.tty :=
  ((Run_restore_attempted sampleOracle sampleSt []).1 ⟨3⟩ (by decide) rfl rfl).2.1 rfl

/-! ## The initial commands -/

/-- C10: once the shell is spawned and raw mode entered, `Run` writes to the
pty, after `MakeRaw` and before it starts the copy workers, one chunk per
initial command, in argument order, each the command followed by "\n", whether
or not earlier writes failed; these are all the writes `Run` itself makes to
the pty, so their concatenation is that of the commands each followed by "\n"
(empty for no command). The outcome does not depend on the writes, and `Run`
does not return an error. -/
theorem Run_initial_commands (o : Oracle) (s : St) (commands : List Bytes) (f : PtyRef)
    (hp : ¬ (s.term.enableNesting = false ∧ Getenv s.env SHOX ≠ []))
    (hf : o.ptyStart (shellCmd s.term) = Except.ok f) (hr : o.makeRawErr = none) :
    (∃ pre post, newEvents s (Run o s commands).1 =
        pre ++ Event.makeRaw ::
          ((commands.enumFrom 0).map
              (fun ic => Event.ptyWrite (some f) (ic.2 ++ [0x0a]) (o.ptyWriteErr ic.1).isSome) ++
            Event.goCopyStdinToPty (some f) :: Event.goCopyProxyToStdout s.term.proxy :: post) ∧
      ptyWritten pre = [] ∧ ptyWritten post = []) ∧
    ptyWritten (newEvents s (Run o s commands).1) = commands.map (fun c => c ++ [0x0a]) ∧
    (ptyWritten (newEvents s (Run o s commands).1)).flatten =
      (commands.map (fun c => c ++ [0x0a])).flatten ∧
    (Run o s commands).2 =
      (match o.copyLoop with
        | CallResult.panics v => Outcome.panicked v
        | CallResult.returns _ => Outcome.returned none) ∧
    (∀ err, (Run o s commands).2 ≠ Outcome.returned (some err)) := by
  obtain ⟨⟨l, chunk, hnew, hl⟩, -, hout⟩ := Run_raw_path o s commands f hp hf hr
  have hpre : ptyWritten (guardEvents s.term ++ Event.proxyStart s.term.proxy ::
      (l ++ [Event.proxyWrite s.term.proxy chunk, Event.ptyStart (shellCmd s.term),
        Event.signalNotify, Event.goResizeWorker, Event.sendSIGWINCH])) = [] := by
    rw [ptyWritten_append, ptyWritten_guardEvents]
    simp only [ptyWritten, List.nil_append]
    rw [ptyWritten_append, ptyWritten_cmdOutputs l hl]
    rfl
  have hpost : ptyWritten (Event.copyPtyToProxy s.term.proxy (some f) ::
      ((match o.copyLoop with
        | CallResult.panics _ => []
        | CallResult.returns _ => [Event.printf (ascii "\r\n")]) ++
      [Event.restore s.tty, Event.ptyClose (some f), Event.proxyClose s.term.proxy])) = [] := by
    cases o.copyLoop <;> rfl
  have hall : ptyWritten (newEvents s (Run o s commands).1) =
      commands.map (fun c => c ++ [0x0a]) := by
    rw [hnew, ptyWritten_append, hpre]
    simp only [ptyWritten, List.nil_append]
    rw [ptyWritten_append, ptyWritten_append, ptyWritten_append, ptyWritten_writeEvents]
    cases o.copyLoop <;> simp [ptyWritten]
  refine ⟨⟨_, _, ?_, hpre, hpost⟩, hall, by rw [hall], hout, ?_⟩
  · rw [hnew, writeEvents_eq_map]
    simp
  · intro err
    rw [hout]
    cases o.copyLoop <;> simp

/-- C10, at the sample state with the commands `ls` and `pwd`, the first write
failing and the copy loop ending with an error: both commands are written and
`Run` returns nil. -/
theorem Run_initial_commands_witness :
    ptyWritten (newEvents sampleSt (Run writeFailsOracle sampleSt [ascii "ls", ascii "pwd"]).1) =
      [ascii "ls\n", ascii "pwd\n"] ∧
    (Run writeFailsOracle sampleSt [ascii "ls", ascii "pwd"]).2 = Outcome.returned none :=
  have h := Run_initial_commands writeFailsOracle sampleSt [ascii "ls", ascii "pwd"] ⟨3⟩
    (by decide) rfl rfl
  ⟨h.2.1.trans (by decide), h.2.2.2.1⟩

end Shox
